import Mathlib

/-!
Verification of the IPT-manager / descriptor-publisher subsystem
(`crates/tor-hsservice/src/ipt_mgr.rs` and
`crates/tor-hsservice/src/svc/publish/reactor.rs`).

Shallow embedding conventions:
* `Instant` and `Duration` are modelled as `Nat` (monotonic clock readings
  from an arbitrary origin; `Instant::checked_sub` fails below the origin,
  modelled by `checked_sub` below; `Instant::duration_since` saturates at
  zero, modelled by truncated `Nat` subtraction).
* `TrackingNow` (from `timeout_track`) is modelled by its underlying
  instant: the deadline-tracking side effect is irrelevant to the claims,
  all its comparisons behave as plain `Instant` comparisons.
* `RelayIds` values are abstracted to `Nat` identifiers; the code only
  compares them for equality.
* `Option<IsCurrent>` is modelled as `Bool` (`is_current.is_some()`).
* `Result<T, ()>` fields (e.g. `time_to_establish`) are modelled as
  `Option Nat`.
* Opaque payloads that no modelled operation inspects (`GoodIptDetails`,
  establisher handles, the keypair `Arc`s, `blind_id`) are omitted from the
  structures; the IPT keypairs are modelled separately for the key-policy
  logic of `Ipt::start_establisher`.
-/

/-- Status of an IPT as tracked by the manager (`TrackedStatus` in
`ipt_mgr.rs`). `Good` carries `time_to_establish` (its `GoodIptDetails`
payload is never inspected by the logic modelled here and is omitted). -/
inductive TrackedStatus where
  | Faulty (started : Option Nat)
  | Establishing (started : Nat)
  | Good (time_to_establish : Option Nat)
deriving DecidableEq

/-- One introduction point (`Ipt` in `ipt_mgr.rs`), restricted to the
fields the modelled operations read. -/
structure Ipt where
  lid : Nat
  status_last : TrackedStatus
  last_descriptor_expiry_including_slop : Option Nat
  is_current : Bool
deriving DecidableEq

/-- One selected relay with its IPTs (`IptRelay` in `ipt_mgr.rs`). -/
structure IptRelay where
  relay : Nat
  planned_retirement : Nat
  ipts : List Ipt
deriving DecidableEq

/-- `IptRelay::current_ipt`: the first IPT at this relay marked current. -/
def IptRelay.current_ipt (ir : IptRelay) : Option Ipt :=
  ir.ipts.find? (fun ipt => ipt.is_current)

/-- `Ipt::is_good`: does this IPT have status `Good`? -/
def Ipt.is_good (ipt : Ipt) : Bool :=
  match ipt.status_last with
  | .Good _ => true
  | .Establishing _ => false
  | .Faulty _ => false

/-- `IptManager::current_ipts`: the current IPT of each relay, in stable
relay insertion order (at most one per relay). -/
def current_ipts (irelays : List IptRelay) : List Ipt :=
  irelays.filterMap (fun ir => ir.current_ipt)

/-- `IptManager::good_ipts`: the current IPTs in `Good` state. -/
def good_ipts (irelays : List IptRelay) : List Ipt :=
  (current_ipts irelays).filter (fun ipt => ipt.is_good)

/-- The loop body of the "Forget old IPTs" step of
`IptManager::idempotently_progress_things_now`: the `ir.ipts.retain`
keeps an IPT iff `is_current` is set or its last descriptor expiry is a
future instant (`now < last`). -/
def forget_old_ipts_relay (now : Nat) (ir : IptRelay) : IptRelay :=
  { ir with
      ipts := ir.ipts.filter (fun ipt =>
        ipt.is_current ||
          match ipt.last_descriptor_expiry_including_slop with
          | none => false
          | some last => decide (now < last)) }

/-- The full "Forget old IPTs" step: the retain applied to every relay. -/
def forget_old_ipts (irelays : List IptRelay) (now : Nat) : List IptRelay :=
  irelays.map (forget_old_ipts_relay now)

/-- `IptManager::expire_old_expiry_times`: the `retain` applied to the
shared `last_descriptor_expiry_including_slop` map (modelled as an
association list `lid ↦ expiry`). The source predicate is
`*expiry <= now`, transcribed verbatim. -/
def expire_old_expiry_times (last_descriptor_expiry_including_slop : List (Nat × Nat))
    (now : Nat) : List (Nat × Nat) :=
  last_descriptor_expiry_including_slop.filter (fun entry => decide (entry.2 ≤ now))

/-- The `while candidates.len() > target_n { pop_front }` loop at the end
of `IptManager::publish_set_select`. -/
def truncate_front {α : Type} : List α → Nat → List α
  | [], _ => []
  | x :: xs, n => if n < (x :: xs).length then truncate_front xs n else x :: xs

/-- The candidate list built by `IptManager::publish_set_select`: the
current IPT of each relay, kept only when `Good`, in relay order. -/
def publish_set_candidates (irelays : List IptRelay) : List Ipt :=
  irelays.filterMap (fun ir =>
    match ir.current_ipt with
    | none => none
    | some current_ipt => if current_ipt.is_good then some current_ipt else none)

/-- `IptManager::publish_set_select`. -/
def publish_set_select (irelays : List IptRelay) (target_n : Nat) : List Ipt :=
  truncate_front (publish_set_candidates irelays) target_n

/-- `IPT_PUBLISH_UNCERTAIN` (30 minutes, in seconds). -/
def IPT_PUBLISH_UNCERTAIN : Nat := 30 * 60

/-- `IPT_PUBLISH_CERTAIN` (12 hours, in seconds). -/
def IPT_PUBLISH_CERTAIN : Nat := 12 * 3600

/-- Minimum of a list of `Nat`, `none` on the empty list
(`Iterator::min`). -/
def list_min : List Nat → Option Nat
  | [] => none
  | x :: xs =>
    match list_min xs with
    | none => some x
    | some m => some (Nat.min x m)

/-- The `fastest_good_establish_time` computation inside
`IptManager::compute_iptsetstatus_publish`: minimum known
`time_to_establish` over the current `Good` IPTs. -/
def fastest_good_establish_time (irelays : List IptRelay) : Option Nat :=
  list_min ((current_ipts irelays).filterMap (fun ipt =>
    match ipt.status_last with
    | .Good time_to_establish => time_to_establish
    | .Establishing _ => none
    | .Faulty _ => none))

/-- `Instant::checked_sub`: `none` when the subtrahend would take the
instant below the clock origin. -/
def checked_sub (a b : Nat) : Option Nat :=
  if b ≤ a then some (a - b) else none

/-- The `very_recently` closure of
`IptManager::compute_iptsetstatus_publish`: on success, the cutoff
instant `now - 2 * fastest_good_establish_time` paired with `wait_more`. -/
def very_recently (irelays : List IptRelay) (now : Nat) : Option (Nat × Nat) :=
  match fastest_good_establish_time irelays with
  | none => none
  | some fastest =>
    match checked_sub now (fastest + fastest) with
    | none => none
    | some cutoff => some (cutoff, fastest)

/-- The `started_establishing_very_recently` closure: the first current
`Establishing` IPT whose `started` lies after the cutoff, if any. -/
def started_establishing_very_recently (irelays : List IptRelay) (now : Nat) :
    Option (Nat × Nat) :=
  match very_recently irelays now with
  | none => none
  | some (cutoff, wait_more) =>
    match ((current_ipts irelays).filterMap (fun ipt =>
        match ipt.status_last with
        | .Establishing started => if cutoff < started then some ipt.lid else none
        | .Good _ => none
        | .Faulty _ => none)).head? with
    | none => none
    | some lid => some (lid, wait_more)

/-- The `publish_lifetime` decision of
`IptManager::compute_iptsetstatus_publish`: `some lifetime` means publish
with that proposed lifetime, `none` means publish nothing. -/
def publish_lifetime (irelays : List IptRelay) (target_n : Nat) (now : Nat) : Option Nat :=
  let n_good_ipts := (good_ipts irelays).length
  if n_good_ipts ≥ target_n then some IPT_PUBLISH_CERTAIN
  else if (good_ipts irelays).isEmpty then none
  else
    match started_establishing_very_recently irelays now with
    | some _ => none
    | none => some IPT_PUBLISH_UNCERTAIN

/-- Comparison definition for the amended C6: hold off exactly when the
fastest good establish time `τ` exists, `2τ ≤ now`, and some current
`Establishing` IPT started strictly after the instant `now - 2τ`. -/
def hold_off_for_establishing (irelays : List IptRelay) (now : Nat) : Bool :=
  match fastest_good_establish_time irelays with
  | none => false
  | some fastest =>
    decide (fastest + fastest ≤ now) &&
      (current_ipts irelays).any (fun ipt =>
        match ipt.status_last with
        | .Establishing started => decide (now - (fastest + fastest) < started)
        | .Good _ => false
        | .Faulty _ => false)

/-- Comparison definition for the C6 counterexample, following the
claim's words: the earliest `started` among current `Establishing`
IPTs. -/
def earliest_establishing_started (irelays : List IptRelay) : Option Nat :=
  list_min ((current_ipts irelays).filterMap (fun ipt =>
    match ipt.status_last with
    | .Establishing started => some started
    | .Good _ => none
    | .Faulty _ => none))

/-- Outcome of the `progress()` loop in `IptManager::run_once`:
either the `expect` on the exhausted `loop_limit` range panics, or
`idempotently_progress_things_now` returned a wake-up deadline. -/
inductive LoopOutcome where
  | panicked
  | deadline (t : Nat)
deriving DecidableEq

/-- The `loop` in `IptManager::run_once`, abstracted over the sequence of
results of the successive `idempotently_progress_things_now` calls
(`steps k` is the result of the `k`-th call): each iteration first draws
from the remaining `fuel` of `loop_limit` (panicking when exhausted),
then calls progress, breaking on `some`. -/
def run_once_loop (steps : Nat → Option Nat) : Nat → Nat → LoopOutcome
  | 0, _ => .panicked
  | fuel + 1, k =>
    match steps k with
    | some t => .deadline t
    | none => run_once_loop steps fuel (k + 1)

/-- The length of `0..((target_n_intro_points() + 1) * 10_000)` in
`IptManager::run_once`. -/
def loop_limit_len (target_n : Nat) : Nat := (target_n + 1) * 10000

/-- The bounded progress loop of `IptManager::run_once`. -/
def run_once_progress (target_n : Nat) (steps : Nat → Option Nat) : LoopOutcome :=
  run_once_loop steps (loop_limit_len target_n) 0

/-- `IptKeyRole` for the two per-IPT keypairs (`KHssNtor`, `KSid`). -/
inductive IptKeyRole where
  | KHssNtor
  | KSid
deriving DecidableEq

/-- Token telling `Ipt::start_establisher` to expect existing keys. -/
inductive IptExpectExistingKeys where
  | mk
deriving DecidableEq

/-- Keystore lookup under a fixed `(nickname, lid)`: first entry for the
role, if any (`KeyMgr::get`). -/
def keystore_get (ks : List (IptKeyRole × Nat)) (role : IptKeyRole) : Option Nat :=
  (ks.find? (fun entry => decide (entry.1 = role))).map (fun entry => entry.2)

/-- The `get_or_gen_key!` macro body of `Ipt::start_establisher`: on
`(expect_existing_keys, existing)` being `(None, Some _)` fail with
`IptKeysFoundUnexpectedly` (the error carries the offending role, standing
for the `ArtiPath`); on `(Some _, None)` log an error (the returned `Bool`)
and generate+insert; otherwise load or generate+insert. Returns the
updated keystore, the key, and the logged-error flag. -/
def get_or_gen_key (ks : List (IptKeyRole × Nat)) (fresh : IptKeyRole → Nat)
    (expect_existing_keys : Option IptExpectExistingKeys) (role : IptKeyRole) :
    Except IptKeyRole (List (IptKeyRole × Nat) × Nat × Bool) :=
  match expect_existing_keys, keystore_get ks role with
  | none, none => .ok (ks ++ [(role, fresh role)], fresh role, false)
  | some _, some k => .ok (ks, k, false)
  | none, some _ => .error role
  | some _, none => .ok (ks ++ [(role, fresh role)], fresh role, true)

/-- The key-acquisition phase of `Ipt::start_establisher`: `KHssNtor`
first, then `KSid`; an error aborts and no `Ipt` is constructed. Returns
the final keystore, both keys, and whether a missing-previous-key error
was logged. -/
def start_establisher_keys (ks : List (IptKeyRole × Nat)) (fresh : IptKeyRole → Nat)
    (expect_existing_keys : Option IptExpectExistingKeys) :
    Except IptKeyRole (List (IptKeyRole × Nat) × Nat × Nat × Bool) :=
  match get_or_gen_key ks fresh expect_existing_keys .KHssNtor with
  | .error r => .error r
  | .ok (ks1, k_hss_ntor, logged1) =>
    match get_or_gen_key ks1 fresh expect_existing_keys .KSid with
    | .error r => .error r
    | .ok (ks2, k_sid, logged2) => .ok (ks2, k_hss_ntor, k_sid, logged1 || logged2)

/-- Clean/Dirty status of a descriptor at one HsDir
(`DescriptorStatus` in `publish/descriptor.rs`). -/
inductive DescriptorStatus where
  | Clean
  | Dirty
deriving DecidableEq

/-- Per-time-period state of the publisher (`TimePeriodContext` in
`reactor.rs`); `blind_id` is omitted (never inspected here). -/
structure TimePeriodContext where
  period : Nat
  hs_dirs : List (Nat × DescriptorStatus)
  last_successful : Option Nat
deriving DecidableEq

/-- Success/failure of one HsDir upload. -/
inductive UploadStatus where
  | Success
  | Failure
deriving DecidableEq

/-- One HsDir outcome in an upload batch (`HsDirUploadStatus`). -/
structure HsDirUploadStatus where
  relay_ids : Nat
  upload_res : UploadStatus
  revision_counter : Nat
deriving DecidableEq

/-- A batch of upload outcomes for one time period
(`TimePeriodUploadResult`). -/
structure TimePeriodUploadResult where
  time_period : Nat
  hsdir_result : List HsDirUploadStatus
deriving DecidableEq

/-- Set the status of the first entry with the given relay id to `Clean`
(the `*status = DescriptorStatus::Clean` through `iter_mut().find`). -/
def mark_clean_first : List (Nat × DescriptorStatus) → Nat → List (Nat × DescriptorStatus)
  | [], _ => []
  | entry :: rest, relay_ids =>
    if entry.1 = relay_ids then (entry.1, DescriptorStatus.Clean) :: rest
    else entry :: mark_clean_first rest relay_ids

/-- The `for upload_res in results.hsdir_result` loop of
`Reactor::handle_upload_results`. When the relay is absent from
`period.hs_dirs` the source executes `return;`, which abandons the whole
remaining batch — transcribed verbatim. -/
def apply_hsdir_results (period : TimePeriodContext) :
    List HsDirUploadStatus → TimePeriodContext
  | [] => period
  | upload_res :: rest =>
    if period.hs_dirs.any (fun entry => decide (entry.1 = upload_res.relay_ids)) then
      let period1 :=
        if upload_res.upload_res = UploadStatus.Success then
          let update_last_successful :=
            match period.last_successful with
            | none => true
            | some counter => decide (counter ≤ upload_res.revision_counter)
          if update_last_successful then
            { period with
                last_successful := some upload_res.revision_counter,
                hs_dirs := mark_clean_first period.hs_dirs upload_res.relay_ids }
          else period
        else period
      apply_hsdir_results period1 rest
    else period

/-- `Reactor::handle_upload_results`: locate the first context for the
batch's time period (no-op if gone) and apply the batch to it. -/
def handle_upload_results :
    List TimePeriodContext → TimePeriodUploadResult → List TimePeriodContext
  | [], _ => []
  | ctx :: rest, results =>
    if ctx.period = results.time_period then
      apply_hsdir_results ctx results.hsdir_result :: rest
    else
      ctx :: handle_upload_results rest results

/-- `UPLOAD_RATE_LIM_THRESHOLD` (60 seconds). -/
def UPLOAD_RATE_LIM_THRESHOLD : Nat := 60

/-- The Dirty HsDirs of one time period, as collected at the top of the
per-TP loop in `Reactor::upload_all`. -/
def dirty_hs_dirs (ctx : TimePeriodContext) : List Nat :=
  ctx.hs_dirs.filterMap (fun entry =>
    if entry.2 = DescriptorStatus.Dirty then some entry.1 else none)

/-- The `for period_ctx in inner.time_periods` loop of
`Reactor::upload_all`: the list of `(period, dirty HsDirs)` upload tasks
spawned. When a TP has no Dirty HsDirs the source executes
`return Ok(())`, ending the whole loop — transcribed verbatim. -/
def upload_all_spawn_tasks : List TimePeriodContext → List (Nat × List Nat)
  | [] => []
  | ctx :: rest =>
    let hs_dirs := dirty_hs_dirs ctx
    if hs_dirs.isEmpty then []
    else (ctx.period, hs_dirs) :: upload_all_spawn_tasks rest

/-- `Reactor::upload_all` (state-relevant effects): given `last_uploaded`
and `now`, returns the new `last_uploaded`, the spawned upload tasks, and
the instant sent to the reminder task, if any. In the rate-limited branch
the source calls `schedule_pending_upload(UPLOAD_RATE_LIM_THRESHOLD)`,
which sends `Some(now + delay)`. -/
def upload_all (last_uploaded : Option Nat) (now : Nat)
    (time_periods : List TimePeriodContext) :
    Option Nat × List (Nat × List Nat) × Option Nat :=
  match last_uploaded with
  | some ts =>
    if now - ts < UPLOAD_RATE_LIM_THRESHOLD then
      (some ts, [], some (now + UPLOAD_RATE_LIM_THRESHOLD))
    else
      (some now, upload_all_spawn_tasks time_periods, none)
  | none => (some now, upload_all_spawn_tasks time_periods, none)

/-- One step of `TimePeriodContext::compute_hsdirs`'s status lookup: Rust
`Iterator::find` on the `old_hsdirs` iterator consumes every element up
to and including the match; returns the found status (if any) and the
remaining iterator contents. -/
def find_consume : List (Nat × DescriptorStatus) → Nat →
    Option DescriptorStatus × List (Nat × DescriptorStatus)
  | [], _ => (none, [])
  | entry :: rest, relay_id =>
    if entry.1 = relay_id then (some entry.2, rest) else find_consume rest relay_id

/-- `TimePeriodContext::compute_hsdirs`: map over the new HsDir ring
(abstracted to the list of relay ids produced by
`NetDir::hs_dirs_upload`), taking each status from the consuming
`old_hsdirs.find(..)` lookup, `Dirty` when not found. -/
def compute_hsdirs : List Nat → List (Nat × DescriptorStatus) → List (Nat × DescriptorStatus)
  | [], _ => []
  | relay_id :: ring_rest, old_hsdirs =>
    match find_consume old_hsdirs relay_id with
    | (some status, old_rest) => (relay_id, status) :: compute_hsdirs ring_rest old_rest
    | (none, old_rest) => (relay_id, DescriptorStatus.Dirty) :: compute_hsdirs ring_rest old_rest

/-- Concrete state for the C5 witness: one relay holding one good current
IPT. -/
def c5Ipt : Ipt :=
  { lid := 1
    status_last := .Good (some 5)
    last_descriptor_expiry_including_slop := none
    is_current := true }

/-- Relay for the C5 witness. -/
def c5Relay : IptRelay :=
  { relay := 7, planned_retirement := 1000, ipts := [c5Ipt] }

/-- Concrete state for the C6 counterexample: one good current IPT with
establish time 10, and two current establishing IPTs started at 50 and
95. -/
def c6Irelays : List IptRelay :=
  [ { relay := 100, planned_retirement := 1000
      ipts := [{ lid := 1, status_last := .Good (some 10)
                 last_descriptor_expiry_including_slop := none, is_current := true }] }
  , { relay := 101, planned_retirement := 1000
      ipts := [{ lid := 2, status_last := .Establishing 50
                 last_descriptor_expiry_including_slop := none, is_current := true }] }
  , { relay := 102, planned_retirement := 1000
      ipts := [{ lid := 3, status_last := .Establishing 95
                 last_descriptor_expiry_including_slop := none, is_current := true }] } ]

/-- Concrete relay for the C7 witness: one current IPT, one expired
non-current IPT, one non-current IPT with a live descriptor. -/
def c7Relay : IptRelay :=
  { relay := 8
    planned_retirement := 500
    ipts :=
      [ { lid := 1, status_last := .Good (some 3)
          last_descriptor_expiry_including_slop := some 40, is_current := true }
      , { lid := 2, status_last := .Faulty none
          last_descriptor_expiry_including_slop := some 90, is_current := false }
      , { lid := 3, status_last := .Faulty none
          last_descriptor_expiry_including_slop := some 200, is_current := false } ] }

/-! Helper lemmas. -/

/-- The pop-front loop computes the suffix of length `min n l.length`. -/
theorem truncate_front_eq_drop {α : Type} (l : List α) (n : Nat) :
    truncate_front l n = l.drop (l.length - n) := by
  induction l with
  | nil => simp [truncate_front]
  | cons x xs ih =>
    by_cases h : n < (x :: xs).length
    · have hle : n ≤ xs.length := by
        simpa [Nat.lt_succ_iff] using h
      have hlen : (x :: xs).length - n = (xs.length - n) + 1 := by
        simp only [List.length_cons]
        omega
      simp only [truncate_front, if_pos h, ih, hlen, List.drop_succ_cons]
    · have hlen : (x :: xs).length - n = 0 := by
        simp only [List.length_cons]
        simp only [List.length_cons, Nat.not_lt] at h
        omega
      simp only [truncate_front, if_neg h, hlen, List.drop_zero]

/-- Sanity lemma (not a claim): on an unchanged directory, where the new
ring lists the same relay ids in the same order, `compute_hsdirs`
reproduces the old list with every status preserved. -/
theorem compute_hsdirs_unchanged (old : List (Nat × DescriptorStatus)) :
    compute_hsdirs (old.map Prod.fst) old = old := by
  induction old with
  | nil => rfl
  | cons entry rest ih =>
    simp [compute_hsdirs, find_consume, ih]

/-! Claim theorems. -/

/-- C1: refuted — the per-iteration expiry step on the shared
`last_descriptor_expiry` map is inverted. With entries
`{1 ↦ 5, 2 ↦ 20}` and `now = 10`, the stale entry (`5 ≤ 10`) is kept and
the live entry (`20 > 10`) is deleted, contrary to the claim (and to the
function's own doc comment). -/
theorem C1_expire_inverted :
    expire_old_expiry_times [(1, 5), (2, 20)] 10 = [(1, 5)]
      ∧ (1, 5) ∈ expire_old_expiry_times [(1, 5), (2, 20)] 10
      ∧ (2, 20) ∉ expire_old_expiry_times [(1, 5), (2, 20)] 10 := by
  refine ⟨rfl, ?_, ?_⟩ <;> decide

/-- C2: refuted — in a non-rate-limited cycle, a time period with no
Dirty HsDirs is not merely skipped: the `return Ok(())` ends the whole
loop, so no upload task is spawned for the later time period 2 even
though it has a Dirty HsDir. -/
theorem C2_upload_all_early_return :
    upload_all none 100
        [ { period := 1, hs_dirs := [(10, DescriptorStatus.Clean)], last_successful := none }
        , { period := 2, hs_dirs := [(20, DescriptorStatus.Dirty)], last_successful := none } ]
      = (some 100, [], none)
      ∧ dirty_hs_dirs
          { period := 2, hs_dirs := [(20, DescriptorStatus.Dirty)], last_successful := none }
        = [20] := by
  exact ⟨rfl, rfl⟩

/-- C3 counterexample: with `last_uploaded = 0` and `now = 30`
(`Δ = 30 < 60`), the reactor tells the reminder task to wake at
`now + 60 = 90`, not at `last_uploaded + 60 = 60` as the claim states. -/
theorem C3_counterexample :
    upload_all (some 0) 30 [] = (some 0, [], some 90)
      ∧ (90 : Nat) ≠ 0 + UPLOAD_RATE_LIM_THRESHOLD := by
  exact ⟨rfl, by decide⟩

/-- C3 (amended): when `Δ = now - last_uploaded < 60s`, the publisher
spawns no upload task, leaves `last_uploaded` unchanged, and signals the
reminder timer to wake at `now + 60s` (a full threshold from the current
time). -/
theorem C3_rate_limited (ts now : Nat) (tps : List TimePeriodContext)
    (h : now - ts < UPLOAD_RATE_LIM_THRESHOLD) :
    upload_all (some ts) now tps
      = (some ts, [], some (now + UPLOAD_RATE_LIM_THRESHOLD)) := by
  simp [upload_all, h]

/-- Witness for C3 at `last_uploaded = 0`, `now = 30`. -/
theorem C3_rate_limited_witness :
    upload_all (some 0) 30 [] = (some 0, [], some (30 + UPLOAD_RATE_LIM_THRESHOLD)) :=
  C3_rate_limited 0 30 [] (by decide)

/-- C4: refuted — when a batch contains an outcome for an HsDir that is
no longer in the time period's list (relay 99), the `return` abandons the
whole batch: the later Success outcome for relay 20 is never applied, the
entry stays Dirty and `last_successful` stays `None`. -/
theorem C4_batch_abort :
    handle_upload_results
        [ { period := 1, hs_dirs := [(20, DescriptorStatus.Dirty)], last_successful := none } ]
        { time_period := 1
          hsdir_result :=
            [ { relay_ids := 99, upload_res := UploadStatus.Success, revision_counter := 5 }
            , { relay_ids := 20, upload_res := UploadStatus.Success, revision_counter := 5 } ] }
      = [ { period := 1, hs_dirs := [(20, DescriptorStatus.Dirty)], last_successful := none } ] := by
  rfl

/-- C8: refuted — `compute_hsdirs` matches old statuses through a
consuming iterator, so when the ring order changes from `[1, 2]` to
`[2, 1]`, relay 1's old `Clean` entry is consumed while matching relay 2
and relay 1 comes out `Dirty`, although its relay id appears (Clean) in
the old list. -/
theorem C8_reorder_loses_status :
    compute_hsdirs [2, 1] [(1, DescriptorStatus.Clean), (2, DescriptorStatus.Clean)]
      = [(2, DescriptorStatus.Clean), (1, DescriptorStatus.Dirty)]
      ∧ (1, DescriptorStatus.Clean)
          ∈ [(1, DescriptorStatus.Clean), (2, DescriptorStatus.Clean)] := by
  exact ⟨rfl, by decide⟩

/-- C5: confirmed — `publish_set_select` returns exactly the suffix of
the candidate list `G` (current Good IPTs in stable relay order) of
length `min target_n |G|`; in particular its size is at most `target_n`
and every selected element is the Good current IPT of some relay. -/
theorem C5_publish_set_select (irelays : List IptRelay) (target_n : Nat) :
    publish_set_select irelays target_n
        = (publish_set_candidates irelays).drop
            ((publish_set_candidates irelays).length - target_n)
      ∧ (publish_set_select irelays target_n).length
          = Nat.min target_n (publish_set_candidates irelays).length
      ∧ ∀ ipt, ipt ∈ publish_set_select irelays target_n →
          ∃ ir, ir ∈ irelays ∧ ir.current_ipt = some ipt ∧ ipt.is_good = true := by
  have hdrop : publish_set_select irelays target_n
      = (publish_set_candidates irelays).drop
          ((publish_set_candidates irelays).length - target_n) :=
    truncate_front_eq_drop _ _
  refine ⟨hdrop, ?_, ?_⟩
  · rw [hdrop, List.length_drop]
    have hmin : Nat.min target_n (publish_set_candidates irelays).length
        = if target_n ≤ (publish_set_candidates irelays).length
          then target_n else (publish_set_candidates irelays).length := rfl
    rw [hmin]
    split <;> omega
  · intro ipt hmem
    rw [hdrop] at hmem
    have hcand : ipt ∈ publish_set_candidates irelays := List.drop_subset _ _ hmem
    rw [publish_set_candidates, List.mem_filterMap] at hcand
    obtain ⟨ir, hir, hf⟩ := hcand
    refine ⟨ir, hir, ?_⟩
    cases hci : ir.current_ipt with
    | none =>
      rw [hci] at hf
      exact Option.noConfusion hf
    | some cur =>
      rw [hci] at hf
      have hf2 : (if cur.is_good = true then some cur else none) = some ipt := hf
      cases hg : cur.is_good with
      | false =>
        rw [hg] at hf2
        simp at hf2
      | true =>
        rw [hg] at hf2
        simp at hf2
        subst hf2
        exact ⟨rfl, hg⟩

/-- Witness for C5: the single good current IPT of the one-relay state is
selected and certified as a Good current IPT. -/
theorem C5_publish_set_select_witness :
    ∃ ir, ir ∈ [c5Relay] ∧ ir.current_ipt = some c5Ipt ∧ c5Ipt.is_good = true :=
  (C5_publish_set_select [c5Relay] 3).2.2 c5Ipt (by decide)

/-- The retain predicate of the forget-old-IPTs step holds iff the IPT is
current or some strictly-future descriptor expiry is recorded. -/
theorem keep_pred_iff (now : Nat) (ipt : Ipt) :
    (ipt.is_current ||
        match ipt.last_descriptor_expiry_including_slop with
        | none => false
        | some last => decide (now < last)) = true
      ↔ (ipt.is_current = true
          ∨ ∃ last, ipt.last_descriptor_expiry_including_slop = some last ∧ now < last) := by
  cases hc : ipt.is_current <;>
    cases hle : ipt.last_descriptor_expiry_including_slop <;>
      simp [hc, hle]

/-- Retention is the negation of the drop condition of the claim. -/
theorem kept_iff_not_dropped (now : Nat) (ipt : Ipt) :
    (ipt.is_current = true
        ∨ ∃ last, ipt.last_descriptor_expiry_including_slop = some last ∧ now < last)
      ↔ ¬(ipt.is_current = false
            ∧ (ipt.last_descriptor_expiry_including_slop = none
                ∨ ∃ last, ipt.last_descriptor_expiry_including_slop = some last
                    ∧ last ≤ now)) := by
  cases hc : ipt.is_current <;>
    cases hle : ipt.last_descriptor_expiry_including_slop <;>
      simp [hc, hle]

/-- C7: confirmed — the garbage-collection step of `progress()` keeps an
IPT record iff it is not the case that `is_current` is absent and the
descriptor expiry is absent or `≤ now`; consequently every IPT with a
strictly-future expiry is retained, regardless of `is_current`. -/
theorem C7_gc (now : Nat) (ir : IptRelay) :
    (∀ irelays, ir ∈ irelays →
        forget_old_ipts_relay now ir ∈ forget_old_ipts irelays now)
      ∧ (∀ ipt, ipt ∈ (forget_old_ipts_relay now ir).ipts ↔
          (ipt ∈ ir.ipts
            ∧ ¬(ipt.is_current = false
                  ∧ (ipt.last_descriptor_expiry_including_slop = none
                      ∨ ∃ last, ipt.last_descriptor_expiry_including_slop = some last
                          ∧ last ≤ now))))
      ∧ (∀ ipt, ipt ∈ ir.ipts →
          ∀ last, ipt.last_descriptor_expiry_including_slop = some last →
            now < last → ipt ∈ (forget_old_ipts_relay now ir).ipts) := by
  refine ⟨fun irelays hmem => List.mem_map_of_mem _ hmem, ?_, ?_⟩
  · intro ipt
    show ipt ∈ ir.ipts.filter _ ↔ _
    rw [List.mem_filter]
    constructor
    · rintro ⟨hl, hp⟩
      exact ⟨hl, (kept_iff_not_dropped now ipt).mp ((keep_pred_iff now ipt).mp hp)⟩
    · rintro ⟨hl, hnd⟩
      exact ⟨hl, (keep_pred_iff now ipt).mpr ((kept_iff_not_dropped now ipt).mpr hnd)⟩
  · intro ipt hl last hle hnow
    show ipt ∈ ir.ipts.filter _
    rw [List.mem_filter]
    exact ⟨hl, (keep_pred_iff now ipt).mpr (Or.inr ⟨last, hle, hnow⟩)⟩

/-- Witness for C7: the non-current IPT of `c7Relay` whose descriptor
expiry 200 lies after `now = 100` is retained by the step. -/
theorem C7_gc_witness :
    ({ lid := 3, status_last := .Faulty none
       last_descriptor_expiry_including_slop := some 200, is_current := false } : Ipt)
      ∈ (forget_old_ipts_relay 100 c7Relay).ipts :=
  (C7_gc 100 c7Relay).2.2
    { lid := 3, status_last := .Faulty none
      last_descriptor_expiry_including_slop := some 200, is_current := false }
    (by decide) 200 rfl (by decide)

/-- If every step up to the fuel bound reports `none`, the loop panics. -/
theorem run_once_loop_all_none (steps : Nat → Option Nat) :
    ∀ fuel k, (∀ j, j < fuel → steps (k + j) = none) →
      run_once_loop steps fuel k = LoopOutcome.panicked := by
  intro fuel
  induction fuel with
  | zero => intro k _; rfl
  | succ n ih =>
    intro k h
    have h0 : steps k = none := by simpa using h 0 (Nat.succ_pos n)
    simp only [run_once_loop, h0]
    refine ih (k + 1) (fun j hj => ?_)
    have h1 := h (j + 1) (Nat.succ_lt_succ hj)
    have he : k + (j + 1) = k + 1 + j := by omega
    rwa [he] at h1

/-- The loop returns the deadline delivered by the first `some` step,
provided it arrives within the fuel bound. -/
theorem run_once_loop_first_some (steps : Nat → Option Nat) :
    ∀ i fuel k t, i < fuel → (∀ j, j < i → steps (k + j) = none) →
      steps (k + i) = some t →
      run_once_loop steps fuel k = LoopOutcome.deadline t := by
  intro i
  induction i with
  | zero =>
    intro fuel k t hfuel _ hsome
    cases fuel with
    | zero => exact absurd hfuel (by omega)
    | succ n =>
      have h0 : steps k = some t := by simpa using hsome
      simp only [run_once_loop, h0]
  | succ i ih =>
    intro fuel k t hfuel hnone hsome
    cases fuel with
    | zero => exact absurd hfuel (by omega)
    | succ n =>
      have h0 : steps k = none := by simpa using hnone 0 (Nat.succ_pos i)
      simp only [run_once_loop, h0]
      refine ih n (k + 1) t (by omega) (fun j hj => ?_) ?_
      · have h1 := hnone (j + 1) (Nat.succ_lt_succ hj)
        have he : k + (j + 1) = k + 1 + j := by omega
        rwa [he] at h1
      · have he : k + (i + 1) = k + 1 + i := by omega
        rwa [he] at hsome

/-- C9: confirmed — the `progress()` loop of `run_once` performs at most
`10_000 × (num_intro_points + 1)` calls: if the first `some` deadline
arrives within that bound it is returned (earlier calls all `none`), and
if every call within the bound returns `none` the `expect` on the
exhausted range panics. -/
theorem C9_loop_bound (target_n : Nat) (steps : Nat → Option Nat) :
    loop_limit_len target_n = 10000 * (target_n + 1)
      ∧ ((∀ j, j < loop_limit_len target_n → steps j = none) →
          run_once_progress target_n steps = LoopOutcome.panicked)
      ∧ (∀ k t, k < loop_limit_len target_n →
          (∀ j, j < k → steps j = none) → steps k = some t →
          run_once_progress target_n steps = LoopOutcome.deadline t) := by
  refine ⟨Nat.mul_comm _ _, ?_, ?_⟩
  · intro h
    exact run_once_loop_all_none steps (loop_limit_len target_n) 0
      (fun j hj => by simpa using h j hj)
  · intro k t hk hnone hsome
    exact run_once_loop_first_some steps k (loop_limit_len target_n) 0 t hk
      (fun j hj => by simpa using hnone j hj) (by simpa using hsome)

/-- Witness for C9: with target 0, an all-`none` step sequence panics and
an immediate `some 7` yields the deadline 7. -/
theorem C9_loop_bound_witness :
    run_once_progress 0 (fun _ => none) = LoopOutcome.panicked
      ∧ run_once_progress 0 (fun _ => some 7) = LoopOutcome.deadline 7 :=
  ⟨(C9_loop_bound 0 (fun _ => none)).2.1 (fun j _ => rfl),
   (C9_loop_bound 0 (fun _ => some 7)).2.2 0 7 (by decide)
     (fun j hj => absurd hj (Nat.not_lt_zero j)) rfl⟩

/-- Keystore lookup after a `get_or_generate` insertion: existing entries
win; the inserted entry is found only for its own role. -/
theorem keystore_get_append (ks : List (IptKeyRole × Nat)) (r : IptKeyRole) (v : Nat)
    (r2 : IptKeyRole) :
    keystore_get (ks ++ [(r, v)]) r2
      = match keystore_get ks r2 with
        | some k => some k
        | none => if r2 = r then some v else none := by
  induction ks with
  | nil =>
    by_cases h : r2 = r
    · subst h; simp [keystore_get, List.find?]
    · have h2 : ¬(r = r2) := fun e => h e.symm
      simp [keystore_get, List.find?, h, h2]
  | cons entry rest ih =>
    by_cases h : entry.1 = r2
    · simp [keystore_get, List.find?, h]
    · simp only [List.cons_append]
      simp only [keystore_get, List.find?, h, decide_eq_true_eq, if_neg h] at ih ⊢
      simpa [h] using ih

/-- C10: confirmed — creating a brand-new IPT (no `IptExpectExistingKeys`
token) fails with the fatal `IptKeysFoundUnexpectedly` when either
keypair is already in the keystore (so no `Ipt` is created), whereas
loading a persisted IPT (token present) always succeeds: missing keys are
regenerated and stored, with only an error logged (the returned flag). -/
theorem C10_key_policy (ks : List (IptKeyRole × Nat)) (fresh : IptKeyRole → Nat) :
    ((keystore_get ks IptKeyRole.KHssNtor ≠ none
          ∨ keystore_get ks IptKeyRole.KSid ≠ none) →
        ∃ r, start_establisher_keys ks fresh none = Except.error r)
      ∧ (∃ ks2 k_hss_ntor k_sid logged,
          start_establisher_keys ks fresh (some IptExpectExistingKeys.mk)
              = Except.ok (ks2, k_hss_ntor, k_sid, logged)
            ∧ (logged = true ↔ (keystore_get ks IptKeyRole.KHssNtor = none
                  ∨ keystore_get ks IptKeyRole.KSid = none))
            ∧ keystore_get ks2 IptKeyRole.KHssNtor = some k_hss_ntor
            ∧ keystore_get ks2 IptKeyRole.KSid = some k_sid) := by
  have hroles : ¬(IptKeyRole.KSid = IptKeyRole.KHssNtor) := by decide
  cases hn : keystore_get ks IptKeyRole.KHssNtor with
  | some a =>
    cases hs : keystore_get ks IptKeyRole.KSid with
    | some b =>
      constructor
      · intro _
        exact ⟨IptKeyRole.KHssNtor, by simp [start_establisher_keys, get_or_gen_key, hn]⟩
      · refine ⟨ks, a, b, false, ?_, by simp [hn, hs], hn, hs⟩
        simp [start_establisher_keys, get_or_gen_key, hn, hs]
    | none =>
      constructor
      · intro _
        exact ⟨IptKeyRole.KHssNtor, by simp [start_establisher_keys, get_or_gen_key, hn]⟩
      · refine ⟨ks ++ [(IptKeyRole.KSid, fresh IptKeyRole.KSid)], a,
          fresh IptKeyRole.KSid, true, ?_, by simp [hn, hs], ?_, ?_⟩
        · simp [start_establisher_keys, get_or_gen_key, hn, hs]
        · rw [keystore_get_append, hn]
        · rw [keystore_get_append, hs, if_pos rfl]
  | none =>
    have hks1 : keystore_get (ks ++ [(IptKeyRole.KHssNtor, fresh IptKeyRole.KHssNtor)])
        IptKeyRole.KSid = keystore_get ks IptKeyRole.KSid := by
      rw [keystore_get_append]
      cases hs : keystore_get ks IptKeyRole.KSid with
      | some b => rfl
      | none => rw [if_neg hroles]
    have hks1n : keystore_get (ks ++ [(IptKeyRole.KHssNtor, fresh IptKeyRole.KHssNtor)])
        IptKeyRole.KHssNtor = some (fresh IptKeyRole.KHssNtor) := by
      rw [keystore_get_append, hn, if_pos rfl]
    cases hs : keystore_get ks IptKeyRole.KSid with
    | some b =>
      constructor
      · intro _
        refine ⟨IptKeyRole.KSid, ?_⟩
        have hb : keystore_get (ks ++ [(IptKeyRole.KHssNtor, fresh IptKeyRole.KHssNtor)])
            IptKeyRole.KSid = some b := by rw [hks1, hs]
        simp [start_establisher_keys, get_or_gen_key, hn, hb]
      · refine ⟨ks ++ [(IptKeyRole.KHssNtor, fresh IptKeyRole.KHssNtor)],
          fresh IptKeyRole.KHssNtor, b, true, ?_, by simp [hn, hs], hks1n, ?_⟩
        · have hb : keystore_get (ks ++ [(IptKeyRole.KHssNtor, fresh IptKeyRole.KHssNtor)])
              IptKeyRole.KSid = some b := by rw [hks1, hs]
          simp [start_establisher_keys, get_or_gen_key, hn, hb]
        · rw [hks1, hs]
    | none =>
      constructor
      · rintro (h | h)
        · exact absurd rfl h
        · exact absurd rfl h
      · have hb : keystore_get (ks ++ [(IptKeyRole.KHssNtor, fresh IptKeyRole.KHssNtor)])
            IptKeyRole.KSid = none := by rw [hks1, hs]
        refine ⟨(ks ++ [(IptKeyRole.KHssNtor, fresh IptKeyRole.KHssNtor)])
              ++ [(IptKeyRole.KSid, fresh IptKeyRole.KSid)],
            fresh IptKeyRole.KHssNtor, fresh IptKeyRole.KSid, true, ?_,
            by simp [hn, hs], ?_, ?_⟩
        · simp [start_establisher_keys, get_or_gen_key, hn, hb]
        · rw [keystore_get_append, hks1n]
        · rw [keystore_get_append, hb, if_pos rfl]

/-- Witness for C10 at the keystore `{KSid ↦ 5}` with generator 9: the
brand-new path fails fatally (KSid already present) and the
expect-existing path succeeds while logging. -/
theorem C10_key_policy_witness :
    (∃ r, start_establisher_keys [(IptKeyRole.KSid, 5)] (fun _ => 9) none
        = Except.error r)
      ∧ (∃ ks2 k_hss_ntor k_sid logged,
          start_establisher_keys [(IptKeyRole.KSid, 5)] (fun _ => 9)
              (some IptExpectExistingKeys.mk)
              = Except.ok (ks2, k_hss_ntor, k_sid, logged)
            ∧ (logged = true
                ↔ (keystore_get [(IptKeyRole.KSid, 5)] IptKeyRole.KHssNtor = none
                    ∨ keystore_get [(IptKeyRole.KSid, 5)] IptKeyRole.KSid = none))
            ∧ keystore_get ks2 IptKeyRole.KHssNtor = some k_hss_ntor
            ∧ keystore_get ks2 IptKeyRole.KSid = some k_sid) :=
  ⟨(C10_key_policy [(IptKeyRole.KSid, 5)] (fun _ => 9)).1 (Or.inr (by decide)),
   (C10_key_policy [(IptKeyRole.KSid, 5)] (fun _ => 9)).2⟩

/-- The hold-off probe of `compute_iptsetstatus_publish` fires exactly
when the amended condition holds: `started_establishing_very_recently`
returns `some` iff the fastest good establish time `τ` exists, `2τ ≤ now`
and some current Establishing IPT started after `now - 2τ`. -/
theorem ssvr_isSome_eq (irelays : List IptRelay) (now : Nat) :
    (started_establishing_very_recently irelays now).isSome
      = hold_off_for_establishing irelays now := by
  unfold started_establishing_very_recently very_recently hold_off_for_establishing checked_sub
  cases hf : fastest_good_establish_time irelays with
  | none => rfl
  | some fastest =>
    by_cases hle : fastest + fastest ≤ now
    · simp only [if_pos hle, decide_eq_true hle, Bool.true_and]
      cases hh : ((current_ipts irelays).filterMap (fun ipt =>
          match ipt.status_last with
          | .Establishing started =>
            if now - (fastest + fastest) < started then some ipt.lid else none
          | .Good _ => none
          | .Faulty _ => none)).head? with
      | none =>
        have hnil := List.head?_eq_none_iff.mp hh
        have hall := List.filterMap_eq_nil_iff.mp hnil
        show (none : Option (Nat × Nat)).isSome = _
        rw [Option.isSome_none]
        symm
        rw [List.any_eq_false]
        intro ipt hmem
        have hnone := hall ipt hmem
        cases hs : ipt.status_last with
        | Establishing started =>
          simp only [hs] at hnone ⊢
          intro hp
          rw [if_pos (of_decide_eq_true hp)] at hnone
          exact Option.noConfusion hnone
        | Good t => simp [hs]
        | Faulty st => simp [hs]
      | some lid =>
        show (some (lid, fastest) : Option (Nat × Nat)).isSome = _
        rw [Option.isSome_some]
        have hmem0 : lid ∈ (current_ipts irelays).filterMap (fun ipt =>
            match ipt.status_last with
            | .Establishing started =>
              if now - (fastest + fastest) < started then some ipt.lid else none
            | .Good _ => none
            | .Faulty _ => none) := List.mem_of_mem_head? (by rw [hh]; rfl)
        obtain ⟨ipt, hmem, hf2⟩ := List.mem_filterMap.mp hmem0
        symm
        rw [List.any_eq_true]
        refine ⟨ipt, hmem, ?_⟩
        cases hs : ipt.status_last with
        | Establishing started =>
          simp only [hs] at hf2 ⊢
          by_cases hlt : now - (fastest + fastest) < started
          · exact decide_eq_true hlt
          · rw [if_neg hlt] at hf2; exact Option.noConfusion hf2
        | Good t => simp only [hs] at hf2; exact Option.noConfusion hf2
        | Faulty st => simp only [hs] at hf2; exact Option.noConfusion hf2
    · have hd : decide (fastest + fastest ≤ now) = false := decide_eq_false hle
      simp only [if_neg hle, hd, Bool.false_and]
      rfl

/-- C6 counterexample: in `c6Irelays` at `now = 100` with target 3, the
code publishes nothing (`none`), yet the claim's hold-off condition is
false there: there is one good IPT (so neither the `≥ target` nor the
"no good IPTs" branch applies), the fastest good establish time is
`τ = 10`, and the earliest Establishing start is 50 with
`100 - 50 = 50 ≥ 2τ = 20` — so per the claim the manager ought to publish
with the UNCERTAIN lifetime. The code instead holds off because a (more
recent) Establishing IPT started at 95. -/
theorem C6_counterexample :
    publish_lifetime c6Irelays 3 100 = none
      ∧ (good_ipts c6Irelays).length = 1
      ∧ fastest_good_establish_time c6Irelays = some 10
      ∧ earliest_establishing_started c6Irelays = some 50
      ∧ ¬(100 - 50 < 2 * 10) := by
  refine ⟨rfl, rfl, rfl, rfl, by decide⟩

/-- C6 (amended): the publish decision is CERTAIN (12h) when
`#Good ≥ target`, nothing when there are no Good IPTs, and otherwise it
holds off exactly when the fastest Good establish time `τ` exists,
`2τ ≤ now`, and some current Establishing IPT started strictly after
`now - 2τ`; in the remaining case it publishes with UNCERTAIN (30 min). -/
theorem C6_publish_decision (irelays : List IptRelay) (target_n now : Nat) :
    publish_lifetime irelays target_n now =
      if target_n ≤ (good_ipts irelays).length then some IPT_PUBLISH_CERTAIN
      else if (good_ipts irelays).length = 0 then none
      else if hold_off_for_establishing irelays now then none
      else some IPT_PUBLISH_UNCERTAIN := by
  simp only [publish_lifetime, ge_iff_le]
  by_cases h1 : target_n ≤ (good_ipts irelays).length
  · rw [if_pos h1, if_pos h1]
  · rw [if_neg h1, if_neg h1]
    have hiff : (good_ipts irelays).isEmpty = true ↔ (good_ipts irelays).length = 0 := by
      cases good_ipts irelays <;> simp
    by_cases h2 : (good_ipts irelays).isEmpty = true
    · rw [if_pos h2, if_pos (hiff.mp h2)]
    · rw [if_neg h2, if_neg (fun hl => h2 (hiff.mpr hl))]
      cases hs : started_establishing_very_recently irelays now with
      | some v =>
        have htrue : hold_off_for_establishing irelays now = true := by
          have h := ssvr_isSome_eq irelays now
          rw [hs] at h
          simpa using h.symm
        simp [htrue]
      | none =>
        have hfalse : hold_off_for_establishing irelays now = false := by
          have h := ssvr_isSome_eq irelays now
          rw [hs] at h
          simpa using h.symm
        simp [hfalse]
